import Mathlib

/-!
# Verification of the `importall` symbol-aggregation engine

A shallow embedding of the `importall` library: the symbol-table merge engine
(`get_all_symbols`), the per-module public-interface step (`import_public_names`,
`wildcard_import_module`), lazy materialization, the deprecation filter
(`deprecated_modules` / `deprecated_names`), builtins protection, and the
provenance-based reversal (`deimportall` via `StdlibChecker` / `from_stdlib`).

Two revisions of the design are present in the repository and both are embedded:

* namespace `Importall`: the package revision (`importall/importall.py`,
  `importall/importlib.py`, `importall/stdlib_utils.py` in the package layout),
  which reads static per-module public-name data, supports lazy proxy values,
  checks for module-level invocation, and reverses via `StdlibChecker`;
* namespace `Legacy`: the flat single-module revision (`importall.py` together
  with `deprecated.py`), which wildcard-imports each module (catching load
  failures) and carries the deprecation tables inline.

Symbol tables (Python dicts keyed by identifier strings) are embedded as
functions `String → Option α`; `dict.__ior__` (the `symtab |= ...` fold step)
is the right-biased union `tunion`.  Module-load side effects (the host
`sys.modules` cache) are embedded by explicit state passing of a load log
`List String`.  Python raising an exception is embedded as `Except String`.
-/

/-! ## Sort keys

`get_all_symbols` sorts module identifiers with
`sorted(module_names, key=lambda name: (priorities.get(name, 0), name))`.
Python compares the key tuples lexicographically: first the integer priority
score, then the identifier string (code-point lexicographic order, which is
also the order of Lean's `LinearOrder String`). -/

/-- "key of `a` ≤ key of `b`" for the Python sort key
`(priorities.get(name, 0), name)` under lexicographic tuple comparison. -/
def moduleKeyLe (prio : String → Int) (a b : String) : Prop :=
  prio a < prio b ∨ (prio a = prio b ∧ a ≤ b)

instance (prio : String → Int) : DecidableRel (moduleKeyLe prio) :=
  fun a b => by unfold moduleKeyLe; infer_instance

/-- Strict "key of `a` < key of `b`" for the same sort key. -/
def moduleKeyLt (prio : String → Int) (a b : String) : Prop :=
  prio a < prio b ∨ (prio a = prio b ∧ a < b)

instance (prio : String → Int) (a b : String) :
    Decidable (moduleKeyLt prio a b) := by
  unfold moduleKeyLt; infer_instance

/-- The ascending sort of `sorted(module_names, key=lambda name:
(priorities.get(name, 0), name))`.  Python's `sorted` is a stable sort;
module identifiers are unique, so the sort key is strictly increasing along
the result and stability is immaterial: any sorting algorithm yields the same
list.  The embedding uses insertion sort. -/
def sorted_modules (prio : String → Int) (mods : List String) : List String :=
  List.insertionSort (moduleKeyLe prio) mods

/-- Right-biased union of symbol tables: `t |= u` (Python `dict.__ior__`),
entries of `u` overwrite same-named entries of `t`. -/
def tunion (t u : String → Option α) : String → Option α :=
  fun n =>
    match u n with
    | some v => some v
    | none => t n

/-- The binding that the fold `for m in l: symtab |= contrib(m)` leaves at key
`n`: the contribution of the last module in `l` that binds `n`. -/
def pickLast (contrib : String → String → Option α) :
    List String → String → Option α
  | [], _ => none
  | m :: rest, n =>
    match pickLast contrib rest n with
    | some v => some v
    | none => contrib m n

/-- The `prioritized` parameter: either an iterable of module names (each
mapped to priority score 1) or an explicit mapping.  The returned function is
`priorities.get(name, 0)`. -/
def prioritiesOf : Sum (List String) (List (String × Int)) → String → Int
  | Sum.inl it => fun m => if it.contains m then 1 else 0
  | Sum.inr mp => fun m => (mp.lookup m).getD 0

/-- Python tuple comparison `a <= b` on `(major, minor)` version tuples. -/
def verLe (a b : Nat × Nat) : Bool :=
  decide (a.1 < b.1 ∨ (a.1 = b.1 ∧ a.2 ≤ b.2))

/-! ## The deprecation filter of the package revision (`stdlib_utils.py`)

The version-indexed tables themselves are static JSON data files
(`deprecated_modules.json`, `deprecated_names.json`); the query functions are
embedded over an arbitrary table of the corresponding shape. -/

namespace StdlibUtils

/-- `deprecated_modules(version)`: union of every module set whose version
floor is at most the queried version (`if version_tuple >= _version`). -/
def deprecated_modules (table : List ((Nat × Nat) × List String))
    (vt : Nat × Nat) : List String :=
  (table.filter fun e => verLe e.1 vt).flatMap fun e => e.2

/-- The set computation of `deprecated_names(module, version)`: union over
table entries with version floor at most `vt` of the name sets recorded for
`module` (`if version_tuple < _version: continue` / `if module == _module`). -/
def deprecated_names_core
    (table : List ((Nat × Nat) × List (String × List String)))
    (m : String) (vt : Nat × Nat) : List String :=
  (table.filter fun e => verLe e.1 vt).flatMap fun e =>
    (e.2.filter fun p => p.1 == m).flatMap fun p => p.2

/-- `deprecated_names(module, version)` of `stdlib_utils.py`: raises
`ValueError` when the module is not an importable stdlib module, otherwise
returns the accumulated name set. -/
def deprecated_names (importables : List String)
    (table : List ((Nat × Nat) × List (String × List String)))
    (m : String) (vt : Nat × Nat) : Except String (List String) :=
  if importables.contains m then Except.ok (deprecated_names_core table m vt)
  else Except.error (m ++ " is not importable stdlib module")

end StdlibUtils

/-! ## The flat legacy revision (`importall.py` + `deprecated.py`) -/

namespace Legacy

/-- `DEPRECATED_MODULES` of `deprecated.py` (dict keys are the version floors
since which the modules are deprecated). -/
def DEPRECATED_MODULES : List ((Nat × Nat) × List String) :=
  [ ((3, 9), ["binhex", "parser", "symbol"]),
    ((3, 6), ["asynchat", "asyncore", "tkinter.tix"]),
    ((3, 4), ["formatter", "imp"]),
    ((3, 3), ["xml.etree.ElementTree"]),
    ((3, 2), ["optparse"]),
    ((3, 0), ["email.encoders"]) ]

/-- `DEPRECATED_NAMES` of `deprecated.py`.  The source's `(3, 8)` dict literal
repeats the key `"gettext"`, so (by Python dict-literal semantics) only the
second binding `{"ldngettext"}` survives. -/
def DEPRECATED_NAMES : List ((Nat × Nat) × List (String × List String)) :=
  [ ((3, 9),
      [ ("ast", ["ExtSlice", "Index"]),
        ("binascii", ["a2b_hqx", "b2a_hqx", "rlecode_hqx", "rledecode_hqx"]),
        ("typing",
          [ "AbstractSet", "AsyncContextManager", "AsyncGenerator",
            "AsyncIterable", "AsyncIterator", "Awaitable", "ByteString",
            "Callable", "ChainMap", "Collection", "Container",
            "ContextManager", "Coroutine", "Counter", "DefaultDict", "Deque",
            "Dict", "FrozenSet", "Generator", "ItemsView", "Iterable",
            "Iterator", "KeysView", "List", "Mapping", "MappingView", "Match",
            "MutableMapping", "MutableSequence", "MutableSet", "OrderedDict",
            "Pattern", "Reversible", "Sequence", "Set", "Tuple", "Type",
            "ValuesView" ]) ]),
    ((3, 8),
      [ ("ast", ["Bytes", "Ellipsis", "NameConstant", "Num", "Str"]),
        ("asyncio", ["coroutine"]),
        ("gettext", ["ldngettext"]) ]),
    ((3, 6), [("grp", ["getgrgid"])]),
    ((3, 5), [("inspect", ["formatargspe", "getcallargs"])]),
    ((3, 3),
      [ ("abc",
          ["abstractclassmethod", "abstractproperty", "abstractstaticmethod"]),
        ("pkgutil", ["ImpImporter", "ImpLoader"]),
        ("urllib.request", ["FancyURLopener", "URLopener"]) ]),
    ((3, 2), [("zipfile", ["BadZipfile"])]),
    ((3, 1), [("turtle", ["settiltangle"])]),
    ((3, 0), [("inspect", ["getargspec"])]),
    ((2, 3), [("tempfile", ["mktemp"])]) ]

/-- `deprecated_modules(version)` of `deprecated.py` over the inline table.
`vt` is the resolved `(major, minor)` version tuple. -/
def deprecated_modules (vt : Nat × Nat) : List String :=
  (DEPRECATED_MODULES.filter fun e => verLe e.1 vt).flatMap fun e => e.2

/-- `deprecated_names(version, module)` of `deprecated.py` over the inline
table.  `module = none` is the `module is None` case which accumulates every
module's deprecated names. -/
def deprecated_names (vt : Nat × Nat) (module : Option String) : List String :=
  (DEPRECATED_NAMES.filter fun e => verLe e.1 vt).flatMap fun e =>
    (e.2.filter fun p => module.isNone || (module == some p.1)).flatMap
      fun p => p.2

/-- The host environment of the flat revision:

* `importable` is `IMPORTABLE_MODULES` (the registry after its static
  exclusions);
* `load m` is the outcome of `exec(f"from {m} import *", {}, symtab)`:
  `none` when the import raises `ImportError`/`ModuleNotFoundError`,
  otherwise the populated symbol table;
* `isModule`, `moduleNameOf`, `origin` embed `inspect.ismodule(symbol)`,
  `symbol.__name__` and `getattr(symbol, "__module__", None)`;
* `versionTuple` is `sys.version_info[:2]`. -/
structure Env (V : Type) where
  importable : List String
  load : String → Option (String → Option V)
  isModule : V → Bool
  moduleNameOf : V → String
  origin : V → Option String
  versionTuple : Nat × Nat

variable {V : Type}

/-- `wildcard_import_module`: programmatic wildcard import; a module that
cannot be loaded yields the empty symbol table (`except (ImportError,
ModuleNotFoundError): return {}`). -/
def wildcard_import_module (env : Env V) (m : String) : String → Option V :=
  match env.load m with
  | some t => t
  | none => fun _ => none

/-- `is_another_stdlib(symbol)`: the symbol is a module object whose name is
another importable stdlib module. -/
def is_another_stdlib (env : Env V) (v : V) : Bool :=
  env.isModule v && env.importable.contains (env.moduleNameOf v)

/-- `from_another_stdlib(symbol)`: the symbol's `__module__` names
another importable stdlib module. -/
def from_another_stdlib (env : Env V) (m : String) (v : V) : Bool :=
  match env.origin v with
  | some o => env.importable.contains o && !(o == m)
  | none => false

/-- `import_public_names(module_name, include_deprecated)`: wildcard import,
then pop deprecated names (unless `include_deprecated`), then drop names that
are re-exports from other stdlib modules. -/
def import_public_names (env : Env V) (m : String) (inc : Bool) :
    String → Option V :=
  fun n =>
    match wildcard_import_module env m n with
    | none => none
    | some v =>
      if !inc && (deprecated_names env.versionTuple (some m)).contains n then
        none
      else if is_another_stdlib env v || from_another_stdlib env m v then none
      else some v

/-- The candidate module list of `get_all_symbols`:
`IMPORTABLE_MODULES - set(ignore)`, minus `deprecated_modules()` unless
`include_deprecated`. -/
def candidate_modules (env : Env V) (inc : Bool) (ignore : List String) :
    List String :=
  let base := env.importable.filter fun m => !(ignore.contains m)
  if inc then base
  else base.filter fun m => !((deprecated_modules env.versionTuple).contains m)

/-- `get_all_symbols` of the flat revision: sort the candidate modules
ascending by `(priority, name)` and fold their contributions with `|=`. -/
def get_all_symbols (env : Env V) (inc : Bool)
    (pr : Sum (List String) (List (String × Int))) (ignore : List String) :
    String → Option V :=
  let priorities := prioritiesOf pr
  (sorted_modules priorities (candidate_modules env inc ignore)).foldl
    (fun t m => tunion t (import_public_names env m inc)) (fun _ => none)

end Legacy

/-! ## The package revision (`importall/importall.py`, `importlib.py`) -/

namespace Importall

/-- A runtime value in a symbol table: either a realized object, or a
`lazy_object_proxy.Proxy` deferring
`import_name_from_module(name, module_name)` (recorded by its module and
attribute names, which the closure captures). -/
inductive PyVal (V : Type) where
  | obj : V → PyVal V
  | proxy : String → String → PyVal V
deriving DecidableEq

/-- The host environment of the package revision:

* `importable` is `IMPORTABLE_STDLIB_MODULES`;
* `publicNames m` is the static `stdlib_public_names(m)` data;
* `moduleObj m` is the module object the host loader yields for `m`, and
  `getattr` is attribute fetch on it (total here: the static name data lists
  attributes that exist);
* `depModulesTable` / `depNamesTable` / `versionTuple` feed the deprecation
  queries of `stdlib_utils.py`;
* `builtinsNames` is `BUILTINS_NAMES`. -/
structure Env (V : Type) where
  importable : List String
  publicNames : String → List String
  moduleObj : String → V
  getattr : V → String → V
  depModulesTable : List ((Nat × Nat) × List String)
  depNamesTable : List ((Nat × Nat) × List (String × List String))
  versionTuple : Nat × Nat
  builtinsNames : List String

/-- The calling context: the caller's stack frame, carrying the code object
name consulted by `is_called_at_module_level()` and the frame globals used
when no namespace argument is supplied. -/
structure Frame (V : Type) where
  coName : String
  fGlobals : String → Option (PyVal V)

variable {V : Type}

/-- `importlib.import_module(m)`: yields the module object and records the
load in the `sys.modules` log (a cached module is not re-loaded). -/
def import_module (env : Env V) (m : String) (s : List String) :
    V × List String :=
  (env.moduleObj m, if s.contains m then s else s ++ [m])

/-- `import_name_from_module(name, module)`:
`getattr(importlib.import_module(module), name)`. -/
def import_name_from_module (env : Env V) (n m : String) (s : List String) :
    V × List String :=
  let r := import_module env m s
  (env.getattr r.1 n, r.2)

/-- The realized value behind a table entry: a proxy realizes to the
attribute its deferred `import_name_from_module` call fetches. -/
def realize (env : Env V) : PyVal V → V
  | PyVal.obj x => x
  | PyVal.proxy m n => env.getattr (env.moduleObj m) n

/-- First observable use of a table entry: a realized object is returned as
is; a proxy triggers its deferred import. -/
def force (env : Env V) (v : PyVal V) (s : List String) : V × List String :=
  match v with
  | PyVal.obj x => (x, s)
  | PyVal.proxy m n => import_name_from_module env n m s

/-- `public_names = stdlib_public_names(module_name)`, minus
`deprecated_names(module=module_name)` unless `include_deprecated`.  (Inside
the aggregation `module_name` is always an importable stdlib module, so the
`ValueError` branch of `deprecated_names` is unreachable and the set
computation is used directly.) -/
def public_names_of (env : Env V) (m : String) (inc : Bool) : List String :=
  if inc then env.publicNames m
  else (env.publicNames m).filter fun n =>
    !((StdlibUtils.deprecated_names_core env.depNamesTable m
        env.versionTuple).contains n)

/-- `import_public_names(module_name, lazy, include_deprecated)` of
`importlib.py`: eager mode loads the module and fetches every public name;
lazy mode binds every public name to a deferred proxy without loading. -/
def import_public_names (env : Env V) (m : String) (lazy inc : Bool)
    (s : List String) : (String → Option (PyVal V)) × List String :=
  let pn := public_names_of env m inc
  if lazy then
    ((fun n => if pn.contains n then some (PyVal.proxy m n) else none), s)
  else
    let r := import_module env m s
    ((fun n => if pn.contains n then some (PyVal.obj (env.getattr r.1 n))
      else none), r.2)

/-- The candidate module list of `get_all_symbols`:
`IMPORTABLE_STDLIB_MODULES - set(ignore)`, minus `deprecated_modules()`
unless `include_deprecated`. -/
def candidate_modules (env : Env V) (inc : Bool) (ignore : List String) :
    List String :=
  let base := env.importable.filter fun m => !(ignore.contains m)
  if inc then base
  else base.filter fun m =>
    !((StdlibUtils.deprecated_modules env.depModulesTable
        env.versionTuple).contains m)

/-- `get_all_symbols`: sort the candidate modules ascending by
`(priorities.get(name, 0), name)` and fold their contributions with `|=`,
threading the load log. -/
def get_all_symbols (env : Env V) (lazy inc : Bool)
    (pr : Sum (List String) (List (String × Int))) (ignore : List String)
    (s : List String) : (String → Option (PyVal V)) × List String :=
  let priorities := prioritiesOf pr
  (sorted_modules priorities (candidate_modules env inc ignore)).foldl
    (fun acc m =>
      (tunion acc.1 (import_public_names env m lazy inc acc.2).1,
        (import_public_names env m lazy inc acc.2).2))
    ((fun _ => none), s)

/-- The value set gathered by `StdlibChecker.__init__`: for every importable
stdlib module, the module object itself and every value of
`import_public_names(module_name, include_deprecated=True)`. -/
def stdlib_symbols (env : Env V) : List V :=
  env.importable.flatMap fun m =>
    env.moduleObj m ::
      (env.publicNames m).map fun n => env.getattr (env.moduleObj m) n

/-- `from_stdlib(symbol)` = `StdlibChecker().check(symbol)`: membership of the
(realized) value in the gathered stdlib value set.  Python matches by
hash/equality with an `id()` fallback for unhashable values; both are
embedded as value equality. -/
def from_stdlib [DecidableEq V] (env : Env V) (v : PyVal V) : Bool :=
  (stdlib_symbols env).contains (realize env v)

/-- `is_called_at_module_level()` as observed by `importall`/`deimportall`:
the caller frame's code object is named `"<module>"`. -/
def is_called_at_module_level (frame : Frame V) : Bool :=
  frame.coName == "<module>"

/-- The builtins-protection step of `importall`: with protection on, every
name in `BUILTINS_NAMES` is popped from the merged table before it is applied
to the namespace. -/
def protected_symtab (env : Env V) (symtab : String → Option (PyVal V))
    (protect : Bool) : String → Option (PyVal V) :=
  if protect then
    fun n => if env.builtinsNames.contains n then none else symtab n
  else symtab

/-- `importall(globals, lazy, protect_builtins, include_deprecated,
prioritized, ignore)`: check module-level invocation (else `RuntimeError`),
resolve the namespace (caller frame globals when none is passed), merge, pop
protected builtins, and update the namespace. -/
def importall (env : Env V) (frame : Frame V)
    (globalsArg : Option (String → Option (PyVal V)))
    (lazy protect inc : Bool) (pr : Sum (List String) (List (String × Int)))
    (ignore : List String) (s : List String) :
    Except String ((String → Option (PyVal V)) × List String) :=
  if !(is_called_at_module_level frame) then
    Except.error
      "importall() function is only allowed to be invoked at the module level"
  else
    let g := globalsArg.getD frame.fGlobals
    let r := get_all_symbols env lazy inc pr ignore s
    Except.ok (tunion g (protected_symtab env r.1 protect), r.2)

/-- The deletion loop of `deimportall`:
`for name, symbol in dict(globals).items(): if from_stdlib(symbol): del
globals[name]`. -/
def deimport_table [DecidableEq V] (env : Env V)
    (g : String → Option (PyVal V)) : String → Option (PyVal V) :=
  fun n =>
    match g n with
    | some v => if from_stdlib env v then none else some v
    | none => none

/-- `deimportall(globals)`: check module-level invocation (else
`RuntimeError`), resolve the namespace, and delete every entry whose value
`from_stdlib` recognizes as aggregated from a stdlib module. -/
def deimportall [DecidableEq V] (env : Env V) (frame : Frame V)
    (globalsArg : Option (String → Option (PyVal V))) (s : List String) :
    Except String ((String → Option (PyVal V)) × List String) :=
  if !(is_called_at_module_level frame) then
    Except.error
      "deimportall() function is only allowed to be invoked at the module level"
  else
    Except.ok (deimport_table env (globalsArg.getD frame.fGlobals), s)

/-- The caller-visible namespace after an `importall(g, ...)` call: Python
mutates `g` in place, and an exception raised before the mutation point
leaves `g` untouched. -/
def importall_apply (env : Env V) (frame : Frame V)
    (g : String → Option (PyVal V)) (lazy protect inc : Bool)
    (pr : Sum (List String) (List (String × Int))) (ignore : List String)
    (s : List String) : (String → Option (PyVal V)) × List String :=
  match importall env frame (some g) lazy protect inc pr ignore s with
  | Except.ok r => r
  | Except.error _ => (g, s)

/-- The caller-visible namespace after a `deimportall(g)` call. -/
def deimportall_apply [DecidableEq V] (env : Env V) (frame : Frame V)
    (g : String → Option (PyVal V)) (s : List String) :
    (String → Option (PyVal V)) × List String :=
  match deimportall env frame (some g) s with
  | Except.ok r => r
  | Except.error _ => (g, s)

end Importall

/-! ## Concrete environments used to instantiate the theorems -/

/-- A two-module package-revision environment: modules `"a"` and `"b"` both
export the single name `"x"`; the module objects are `10` and `20` and
attribute fetch yields `11` and `21` respectively. -/
def envAB : Importall.Env Nat :=
  ⟨["a", "b"], (fun _ => ["x"]), (fun m => if m == "a" then 10 else 20),
    (fun mo _ => mo + 1), [], [], (3, 9), []⟩

/-- A one-module package-revision environment: module `"m"` exports `"x"`
with value `1`; the destination namespace will hold an unrelated value `0`
at `"x"`. -/
def envM : Importall.Env Nat :=
  ⟨["m"], (fun _ => ["x"]), (fun _ => 100), (fun _ _ => 1), [], [], (3, 9), []⟩

/-- A module-level calling context with empty frame globals. -/
def topFrame : Importall.Frame Nat :=
  ⟨"<module>", fun _ => none⟩

/-- A calling context inside a function body `f`. -/
def funcFrame : Importall.Frame Nat :=
  ⟨"f", fun _ => none⟩

/-- A destination namespace holding an unrelated binding `"x" ↦ 0`. -/
def nsX : String → Option (Importall.PyVal Nat) :=
  fun n => if n == "x" then some (Importall.PyVal.obj 0) else none

/-- A destination namespace holding an unrelated binding `"y" ↦ 7` that no
aggregatable module exports. -/
def nsY : String → Option (Importall.PyVal Nat) :=
  fun n => if n == "y" then some (Importall.PyVal.obj 7) else none

/-- A destination namespace whose binding `"z" ↦ 1` is never touched by the
merge (no module exports `"z"`) but whose value coincides with an aggregated
stdlib value. -/
def nsZ : String → Option (Importall.PyVal Nat) :=
  fun n => if n == "z" then some (Importall.PyVal.obj 1) else none

/-- Like `envM` but with `"x"` declared a protected builtin name. -/
def envMB : Importall.Env Nat :=
  ⟨["m"], (fun _ => ["x"]), (fun _ => 100), (fun _ _ => 1), [], [], (3, 9),
    ["x"]⟩

/-- A two-module legacy environment: `"a"` loads and wildcard-exports
`"x" ↦ 5`, while `"b"` fails to load. -/
def envLegacy : Legacy.Env Nat :=
  ⟨["a", "b"],
    (fun m =>
      if m == "a" then some (fun n => if n == "x" then some 5 else none)
      else none),
    (fun _ => false), (fun _ => ""), (fun _ => none), (3, 9)⟩

/-! # Theorems

General facts about the sort key, the sorted module list, and the
`|=`-fold, shared by the claim theorems below. -/

theorem contains_iff_mem {α : Type} [BEq α] [LawfulBEq α] (l : List α)
    (a : α) : l.contains a = true ↔ a ∈ l :=
  List.elem_iff

theorem moduleKeyLe_trans (prio : String → Int) :
    ∀ a b c, moduleKeyLe prio a b → moduleKeyLe prio b c →
      moduleKeyLe prio a c := by
  intro a b c hab hbc
  rcases hab with h | ⟨he, hs⟩ <;> rcases hbc with h' | ⟨he', hs'⟩
  · exact Or.inl (h.trans h')
  · exact Or.inl (he' ▸ h)
  · exact Or.inl (he ▸ h')
  · exact Or.inr ⟨he.trans he', hs.trans hs'⟩

theorem moduleKeyLe_total (prio : String → Int) :
    ∀ a b, moduleKeyLe prio a b ∨ moduleKeyLe prio b a := by
  intro a b
  rcases lt_trichotomy (prio a) (prio b) with h | h | h
  · exact Or.inl (Or.inl h)
  · rcases le_total a b with hs | hs
    · exact Or.inl (Or.inr ⟨h, hs⟩)
    · exact Or.inr (Or.inr ⟨h.symm, hs⟩)
  · exact Or.inr (Or.inl h)

theorem moduleKeyLe_antisymm (prio : String → Int) {a b : String}
    (hab : moduleKeyLe prio a b) (hba : moduleKeyLe prio b a) : a = b := by
  rcases hab with h | ⟨he, hs⟩ <;> rcases hba with h' | ⟨he', hs'⟩
  · exact absurd (h.trans h') (lt_irrefl _)
  · exact absurd h (he' ▸ lt_irrefl _)
  · exact absurd h' (he ▸ lt_irrefl _)
  · exact le_antisymm hs hs'

theorem moduleKeyLe_of_lt (prio : String → Int) {a b : String}
    (h : moduleKeyLt prio a b) : moduleKeyLe prio a b := by
  rcases h with h | ⟨he, hs⟩
  · exact Or.inl h
  · exact Or.inr ⟨he, le_of_lt hs⟩

theorem eq_of_keyLe_of_keyLt (prio : String → Int) {a b : String}
    (hab : moduleKeyLe prio a b) (hba : moduleKeyLt prio b a) : a = b :=
  moduleKeyLe_antisymm prio hab (moduleKeyLe_of_lt prio hba)

theorem sorted_modules_sorted (prio : String → Int) (mods : List String) :
    List.Sorted (moduleKeyLe prio) (sorted_modules prio mods) :=
  haveI : IsTotal String (moduleKeyLe prio) := ⟨moduleKeyLe_total prio⟩
  haveI : IsTrans String (moduleKeyLe prio) := ⟨moduleKeyLe_trans prio⟩
  List.sorted_insertionSort (moduleKeyLe prio) mods

theorem sorted_modules_perm (prio : String → Int) (mods : List String) :
    (sorted_modules prio mods).Perm mods :=
  List.perm_insertionSort (moduleKeyLe prio) mods

theorem mem_sorted_modules {prio : String → Int} {mods : List String}
    {a : String} : a ∈ sorted_modules prio mods ↔ a ∈ mods :=
  (sorted_modules_perm prio mods).mem_iff

/-- Sorting commutes with filtering: obtained from antisymmetry of the sort
key (identifiers are unique strings, so there are no genuine key ties). -/
theorem sorted_modules_filter_comm (prio : String → Int) (p : String → Bool)
    (mods : List String) :
    sorted_modules prio (mods.filter p) =
      (sorted_modules prio mods).filter p := by
  haveI : IsAntisymm String (moduleKeyLe prio) :=
    ⟨fun a b => moduleKeyLe_antisymm prio⟩
  apply List.eq_of_perm_of_sorted (r := moduleKeyLe prio)
  · exact ((sorted_modules_perm prio _).trans
      ((sorted_modules_perm prio mods).filter p).symm)
  · exact sorted_modules_sorted prio _
  · exact (sorted_modules_sorted prio mods).filter p

theorem foldl_tunion_eq_pickLast (contrib : String → String → Option α)
    (l : List String) (t : String → Option α) (n : String) :
    (l.foldl (fun acc m => tunion acc (contrib m)) t) n =
      match pickLast contrib l n with
      | some v => some v
      | none => t n := by
  induction l generalizing t with
  | nil => rfl
  | cons x xs ih =>
    simp only [List.foldl_cons, pickLast]
    rw [ih]
    cases pickLast contrib xs n <;> simp [tunion]

theorem pickLast_eq_none (contrib : String → String → Option α)
    (l : List String) (n : String) (h : ∀ m ∈ l, contrib m n = none) :
    pickLast contrib l n = none := by
  induction l with
  | nil => rfl
  | cons x xs ih =>
    simp only [pickLast]
    rw [ih fun m hm => h m (List.mem_cons_of_mem x hm)]
    exact h x (List.mem_cons_self x xs)

theorem exists_of_pickLast_eq_some (contrib : String → String → Option α)
    {l : List String} {n : String} {v : α}
    (h : pickLast contrib l n = some v) : ∃ m ∈ l, contrib m n = some v := by
  induction l with
  | nil => exact absurd h (by simp [pickLast])
  | cons x xs ih =>
    simp only [pickLast] at h
    cases hx : pickLast contrib xs n with
    | some w =>
      rw [hx] at h
      obtain ⟨m, hm, hc⟩ := ih (hx.trans h)
      exact ⟨m, List.mem_cons_of_mem x hm, hc⟩
    | none =>
      rw [hx] at h
      exact ⟨x, List.mem_cons_self x xs, h⟩

/-- In a list sorted ascending by the key `(priority, identifier)`, a module
`m` that binds `n` and is strictly key-greater than every other module
binding `n` supplies the final (fold-winning) binding. -/
theorem pickLast_eq_of_max (contrib : String → String → Option α)
    (prio : String → Int) {l : List String} {n m : String} {v : α}
    (hs : List.Pairwise (moduleKeyLe prio) l)
    (hm : m ∈ l) (hv : contrib m n = some v)
    (hmax : ∀ mm ∈ l, mm ≠ m → contrib mm n ≠ none → moduleKeyLt prio mm m) :
    pickLast contrib l n = some v := by
  induction l with
  | nil => exact absurd hm (List.not_mem_nil m)
  | cons x xs ih =>
    have hpair := List.pairwise_cons.mp hs
    by_cases hmem : m ∈ xs
    · have : pickLast contrib xs n = some v :=
        ih hpair.2 hmem
          (fun mm hmm h1 h2 => hmax mm (List.mem_cons_of_mem x hmm) h1 h2)
      simp only [pickLast, this]
    · have hx : x = m := by
        rcases List.mem_cons.mp hm with h | h
        · exact h.symm
        · exact absurd h hmem
      have hrest : pickLast contrib xs n = none := by
        apply pickLast_eq_none
        intro mm hmm
        by_contra hne
        have hne' : mm ≠ m := fun h => hmem (h ▸ hmm)
        have hlt := hmax mm (List.mem_cons_of_mem x hmm) hne' hne
        have hle := hpair.1 mm hmm
        rw [hx] at hle
        exact hne' (eq_of_keyLe_of_keyLt prio hle hlt).symm
      simp only [pickLast, hrest, hx, hv]

theorem pickLast_filter_of_none (contrib : String → String → Option α)
    (l : List String) (m n : String) (h : contrib m n = none) :
    pickLast contrib (l.filter fun x => !(x == m)) n =
      pickLast contrib l n := by
  induction l with
  | nil => rfl
  | cons x xs ih =>
    by_cases hx : x = m
    · subst hx
      simp only [List.filter_cons, beq_self_eq_true, Bool.not_true,
        Bool.false_eq_true, if_false, reduceIte, ih, pickLast]
      cases hp : pickLast contrib xs n <;> simp [h]
    · have hbeq : (!(x == m)) = true := by simp [hx]
      simp only [List.filter_cons, hbeq, if_true, reduceIte, pickLast, ih]

/-! ## Facts about the deprecation filter and the legacy revision -/

theorem verLe_trans {a b c : Nat × Nat} (hab : verLe a b = true)
    (hbc : verLe b c = true) : verLe a c = true := by
  simp only [verLe, decide_eq_true_eq] at *
  rcases hab with h | ⟨he, hs⟩ <;> rcases hbc with h' | ⟨he', hs'⟩
  · exact Or.inl (h.trans h')
  · exact Or.inl (he' ▸ h)
  · exact Or.inl (he ▸ h')
  · exact Or.inr ⟨he.trans he', hs.trans hs'⟩

theorem list_filter_comm {α : Type} (p q : α → Bool) (l : List α) :
    (l.filter p).filter q = (l.filter q).filter p := by
  rw [List.filter_filter, List.filter_filter]
  congr 1
  funext a
  rw [Bool.and_comm]

theorem legacy_candidate_cons_ignore {V : Type} (env : Legacy.Env V)
    (inc : Bool) (ignore : List String) (m : String) :
    Legacy.candidate_modules env inc (m :: ignore) =
      (Legacy.candidate_modules env inc ignore).filter fun x => !(x == m) := by
  have hbase :
      (env.importable.filter fun x => !((m :: ignore).contains x)) =
        (env.importable.filter fun x => !(ignore.contains x)).filter
          fun x => !(x == m) := by
    rw [List.filter_filter]
    apply List.filter_congr
    intro x _
    show (!((m :: ignore).contains x)) = (!(x == m) && !(ignore.contains x))
    have hc : (m :: ignore).contains x = (x == m || ignore.contains x) := rfl
    rw [hc]
    cases x == m <;> cases ignore.contains x <;> rfl
  unfold Legacy.candidate_modules
  cases inc with
  | true => simpa using hbase
  | false =>
    simp only [Bool.false_eq_true, if_false, reduceIte]
    rw [hbase, list_filter_comm]

/-- C4: a candidate module that cannot be loaded contributes the empty symbol
table (`wildcard_import_module` catches `ImportError`/`ModuleNotFoundError`
and yields `{}`), and the surrounding merge completes with exactly the result
it would produce had the module been explicitly ignored — one unavailable
module never aborts the aggregation. -/
theorem unloadable_module_contributes_nothing {V : Type}
    (env : Legacy.Env V) (inc : Bool)
    (pr : Sum (List String) (List (String × Int))) (ignore : List String)
    (m : String) (h : env.load m = none) :
    (∀ n, Legacy.import_public_names env m inc n = none) ∧
    (∀ n, Legacy.get_all_symbols env inc pr ignore n =
      Legacy.get_all_symbols env inc pr (m :: ignore) n) := by
  have hempty : ∀ n, Legacy.import_public_names env m inc n = none := by
    intro n
    simp [Legacy.import_public_names, Legacy.wildcard_import_module, h]
  refine ⟨hempty, fun n => ?_⟩
  simp only [Legacy.get_all_symbols]
  rw [legacy_candidate_cons_ignore, sorted_modules_filter_comm]
  rw [foldl_tunion_eq_pickLast, foldl_tunion_eq_pickLast]
  rw [pickLast_filter_of_none _ _ _ _ (hempty n)]

/-- C4 witness: in `envLegacy` the module `"b"` fails to load; its
contribution is empty and the merge result matches the merge that ignores
`"b"` outright. -/
theorem unloadable_module_contributes_nothing_witness :
    Legacy.import_public_names envLegacy "b" false "x" = none ∧
    Legacy.get_all_symbols envLegacy false (Sum.inl []) [] "x" =
      Legacy.get_all_symbols envLegacy false (Sum.inl []) ["b"] "x" := by
  have h := unloadable_module_contributes_nothing envLegacy false
    (Sum.inl []) [] "b" (by rfl)
  exact ⟨h.1 "x", h.2 "x"⟩

/-- C5: for a module identifier mentioned nowhere in the deprecated-names
table, the runtime (non-strict) deprecation query `deprecated_names` of
`deprecated.py` returns the empty set — it has no error path at all. -/
theorem unknown_module_deprecated_names_empty (vt : Nat × Nat) (m : String)
    (h : ∀ e ∈ Legacy.DEPRECATED_NAMES, ∀ p ∈ e.2, p.1 ≠ m) :
    Legacy.deprecated_names vt (some m) = [] := by
  unfold Legacy.deprecated_names
  apply List.flatMap_eq_nil_iff.mpr
  intro e he
  have he' := List.mem_of_mem_filter he
  have hfil :
      (e.2.filter fun p =>
        (some m : Option String).isNone || (some m == some p.1)) = [] := by
    apply List.filter_eq_nil_iff.mpr
    intro p hp
    have hne := h e he' p hp
    simp only [Option.isNone_some, Bool.false_or, beq_iff_eq,
      Option.some.injEq]
    exact fun hh => hne hh.symm
  rw [hfil]
  rfl

/-- C5 witness: a module identifier absent from the table yields the empty
set at version `(3, 9)`. -/
theorem unknown_module_deprecated_names_empty_witness :
    Legacy.deprecated_names (3, 9) (some "no_such_module") = [] :=
  unknown_module_deprecated_names_empty (3, 9) "no_such_module" (by decide)

/-- C6: the deprecation queries are monotone in the version: every table
entry whose version floor is ≤ the queried version is unioned in, so for
`v1 ≤ v2` the module set (and each per-module name set) computed for `v1` is
contained in the one computed for `v2`. -/
theorem deprecation_monotone (table : List ((Nat × Nat) × List String))
    (ntable : List ((Nat × Nat) × List (String × List String)))
    (importables : List String) (m : String) (v1 v2 : Nat × Nat)
    (h : verLe v1 v2 = true) :
    (∀ x ∈ StdlibUtils.deprecated_modules table v1,
      x ∈ StdlibUtils.deprecated_modules table v2) ∧
    (∀ names1 names2,
      StdlibUtils.deprecated_names importables ntable m v1 =
        Except.ok names1 →
      StdlibUtils.deprecated_names importables ntable m v2 =
        Except.ok names2 →
      ∀ x ∈ names1, x ∈ names2) := by
  have hstep : ∀ (e : (Nat × Nat) × List String), verLe e.1 v1 = true →
      verLe e.1 v2 = true := fun e he => verLe_trans he h
  constructor
  · intro x hx
    obtain ⟨e, he, hxe⟩ := List.mem_flatMap.mp hx
    obtain ⟨he', hv⟩ := List.mem_filter.mp he
    exact List.mem_flatMap.mpr
      ⟨e, List.mem_filter.mpr ⟨he', hstep e hv⟩, hxe⟩
  · intro names1 names2 h1 h2 x hx
    unfold StdlibUtils.deprecated_names at h1 h2
    by_cases hin : importables.contains m = true
    · rw [if_pos hin, Except.ok.injEq] at h1 h2
      subst h1
      subst h2
      obtain ⟨e, he, hxe⟩ := List.mem_flatMap.mp hx
      obtain ⟨he', hv⟩ := List.mem_filter.mp he
      exact List.mem_flatMap.mpr
        ⟨e, List.mem_filter.mpr ⟨he', verLe_trans hv h⟩, hxe⟩
    · rw [if_neg hin] at h1
      exact absurd h1 (by simp)

/-- C6 witness: `"optparse"` is deprecated at `(3, 2)` and, by monotonicity,
still at `(3, 9)`, over the repository's own deprecation table. -/
theorem deprecation_monotone_witness :
    verLe (3, 2) (3, 9) = true ∧
    "optparse" ∈ StdlibUtils.deprecated_modules Legacy.DEPRECATED_MODULES
      (3, 9) :=
  ⟨by decide,
    (deprecation_monotone Legacy.DEPRECATED_MODULES Legacy.DEPRECATED_NAMES
      ["typing"] "typing" (3, 2) (3, 9) (by decide)).1 "optparse" (by decide)⟩

/-! ## Facts about the package revision -/

namespace Importall

variable {V : Type}

theorem import_public_names_fst (env : Env V) (m : String) (lazy inc : Bool)
    (s : List String) :
    (import_public_names env m lazy inc s).1 =
      (import_public_names env m lazy inc []).1 := by
  cases lazy <;> rfl

theorem foldl_state_fst (env : Env V) (lazy inc : Bool) (l : List String)
    (t : String → Option (PyVal V)) (s : List String) :
    (l.foldl (fun acc m =>
      (tunion acc.1 (import_public_names env m lazy inc acc.2).1,
        (import_public_names env m lazy inc acc.2).2)) (t, s)).1 =
      l.foldl
        (fun tt m => tunion tt ((import_public_names env m lazy inc []).1))
        t := by
  induction l generalizing t s with
  | nil => rfl
  | cons x xs ih =>
    simp only [List.foldl_cons]
    rw [ih, import_public_names_fst]

theorem get_all_symbols_fst (env : Env V) (lazy inc : Bool)
    (pr : Sum (List String) (List (String × Int))) (ignore : List String)
    (s : List String) :
    (get_all_symbols env lazy inc pr ignore s).1 =
      (sorted_modules (prioritiesOf pr)
        (candidate_modules env inc ignore)).foldl
        (fun tt m => tunion tt ((import_public_names env m lazy inc []).1))
        (fun _ => none) := by
  simp only [get_all_symbols]
  exact foldl_state_fst env lazy inc _ _ s

theorem foldl_state_snd_lazy (env : Env V) (inc : Bool) (l : List String)
    (t : String → Option (PyVal V)) (s : List String) :
    (l.foldl (fun acc m =>
      (tunion acc.1 (import_public_names env m true inc acc.2).1,
        (import_public_names env m true inc acc.2).2)) (t, s)).2 = s := by
  induction l generalizing t s with
  | nil => rfl
  | cons x xs ih =>
    simp only [List.foldl_cons]
    exact ih _ _

theorem mem_public_names_of (env : Env V) {m n : String} {inc : Bool}
    (h : n ∈ public_names_of env m inc) : n ∈ env.publicNames m := by
  unfold public_names_of at h
  cases inc with
  | true => simpa using h
  | false =>
    simp only [Bool.false_eq_true, if_false, reduceIte] at h
    exact List.mem_of_mem_filter h

theorem contribution_shape (env : Env V) (m : String) (lazy inc : Bool)
    {n : String} {w : PyVal V}
    (h : (import_public_names env m lazy inc []).1 n = some w) :
    n ∈ public_names_of env m inc ∧
      realize env w = env.getattr (env.moduleObj m) n := by
  cases lazy with
  | true =>
    simp only [import_public_names, if_true] at h
    by_cases hc : (public_names_of env m inc).contains n = true
    · rw [if_pos hc] at h
      refine ⟨(contains_iff_mem _ _).mp hc, ?_⟩
      cases h
      rfl
    · rw [if_neg hc] at h
      exact absurd h (by simp)
  | false =>
    simp only [import_public_names, Bool.false_eq_true, if_false,
      reduceIte] at h
    by_cases hc : (public_names_of env m inc).contains n = true
    · rw [if_pos hc] at h
      refine ⟨(contains_iff_mem _ _).mp hc, ?_⟩
      cases h
      rfl
    · rw [if_neg hc] at h
      exact absurd h (by simp)

theorem from_stdlib_of_contribution [DecidableEq V] (env : Env V)
    {m : String} (lazy inc : Bool) {n : String} {w : PyVal V}
    (hm : m ∈ env.importable)
    (h : (import_public_names env m lazy inc []).1 n = some w) :
    from_stdlib env w = true := by
  obtain ⟨hpn, hre⟩ := contribution_shape env m lazy inc h
  have hn : n ∈ env.publicNames m := mem_public_names_of env hpn
  unfold from_stdlib
  rw [hre]
  apply (contains_iff_mem _ _).mpr
  apply List.mem_flatMap.mpr
  exact ⟨m, hm, List.mem_cons_of_mem _ (List.mem_map_of_mem _ hn)⟩

theorem candidate_sub_importable (env : Env V) {inc : Bool}
    {ignore : List String} {m : String}
    (h : m ∈ candidate_modules env inc ignore) : m ∈ env.importable := by
  unfold candidate_modules at h
  cases inc with
  | true => exact List.mem_of_mem_filter h
  | false => exact List.mem_of_mem_filter (List.mem_of_mem_filter h)

theorem from_stdlib_of_get_all_symbols [DecidableEq V] (env : Env V)
    (lazy inc : Bool) (pr : Sum (List String) (List (String × Int)))
    (ignore : List String) (s : List String) {n : String} {w : PyVal V}
    (h : (get_all_symbols env lazy inc pr ignore s).1 n = some w) :
    from_stdlib env w = true := by
  rw [get_all_symbols_fst, foldl_tunion_eq_pickLast] at h
  cases hp : pickLast (fun mm k => (import_public_names env mm lazy inc []).1 k)
      (sorted_modules (prioritiesOf pr) (candidate_modules env inc ignore))
      n with
  | none => rw [hp] at h; exact absurd h (by simp)
  | some v =>
    rw [hp] at h
    obtain ⟨m, hm, hc⟩ := exists_of_pickLast_eq_some _ hp
    have hm' : m ∈ env.importable :=
      candidate_sub_importable env (mem_sorted_modules.mp hm)
    cases h
    exact from_stdlib_of_contribution env lazy inc hm' hc

end Importall

namespace Importall

variable {V : Type}

theorem protected_symtab_some (env : Env V)
    (symtab : String → Option (PyVal V)) (protect : Bool) {n : String}
    {w : PyVal V} (h : protected_symtab env symtab protect n = some w) :
    symtab n = some w := by
  unfold protected_symtab at h
  cases protect with
  | false => exact h
  | true =>
    have h' :
        (if env.builtinsNames.contains n = true then none else symtab n) =
          some w := h
    by_cases hc : env.builtinsNames.contains n = true
    · rw [if_pos hc] at h'
      exact Option.noConfusion h'
    · rw [if_neg hc] at h'
      exact h'

end Importall

/-! ## The claims about the package revision -/

/-- C1: for every candidate module set and priority assignment, the merged
symbol table binds each colliding name to the value contributed by the
module that is maximal under the order (priority score, identifier string):
modules are sorted ascending by that key and folded in ascending order with
later contributions overwriting earlier ones, so the key-maximal module
among those binding a name supplies its final value. -/
theorem merge_binds_max_priority_module {V : Type} (env : Importall.Env V)
    (lazy inc : Bool) (pr : Sum (List String) (List (String × Int)))
    (ignore s : List String) (n m : String) (v : Importall.PyVal V)
    (hm : m ∈ Importall.candidate_modules env inc ignore)
    (hv : (Importall.import_public_names env m lazy inc []).1 n = some v)
    (hmax : ∀ mm ∈ Importall.candidate_modules env inc ignore, mm ≠ m →
      (Importall.import_public_names env mm lazy inc []).1 n ≠ none →
      moduleKeyLt (prioritiesOf pr) mm m) :
    (Importall.get_all_symbols env lazy inc pr ignore s).1 n = some v := by
  rw [Importall.get_all_symbols_fst, foldl_tunion_eq_pickLast]
  rw [pickLast_eq_of_max _ (prioritiesOf pr)
    (sorted_modules_sorted (prioritiesOf pr) _)
    (mem_sorted_modules.mpr hm) hv
    (fun mm hmm h1 h2 => hmax mm (mem_sorted_modules.mp hmm) h1 h2)]

/-- C1 witness: modules `"a"` (priority 0) and `"b"` (priority 1) both export
`"x"`; the merge binds `"x"` to `"b"`'s value `21`. -/
theorem merge_binds_max_priority_module_witness :
    (Importall.get_all_symbols envAB false false (Sum.inl ["b"]) [] []).1 "x"
      = some (Importall.PyVal.obj 21) :=
  merge_binds_max_priority_module envAB false false (Sum.inl ["b"]) [] []
    "x" "b" (Importall.PyVal.obj 21) (by decide) (by decide) (by decide)

/-- C2 counterexample: the round trip `deimportall` after `importall` does
not restore every original binding.  In `envM` (module `"m"` exports
`"x" ↦ 1`): a namespace holding an unrelated `"x" ↦ 0` loses it (the
aggregation overwrites `"x"` and reversal merely deletes the aggregated
value), and a namespace holding `"z" ↦ 1` — untouched by the merge but equal
to an aggregated stdlib value — loses it too. -/
theorem roundtrip_restore_counterexample :
    (nsX "x" = some (Importall.PyVal.obj 0) ∧
      (Importall.deimportall_apply envM topFrame
        (Importall.importall_apply envM topFrame nsX false true false
          (Sum.inl []) [] []).1
        (Importall.importall_apply envM topFrame nsX false true false
          (Sum.inl []) [] []).2).1 "x" = none) ∧
    (nsZ "z" = some (Importall.PyVal.obj 1) ∧
      (Importall.deimportall_apply envM topFrame
        (Importall.importall_apply envM topFrame nsZ false true false
          (Sum.inl []) [] []).1
        (Importall.importall_apply envM topFrame nsZ false true false
          (Sum.inl []) [] []).2).1 "z" = none) :=
  ⟨⟨rfl, by decide⟩, ⟨rfl, by decide⟩⟩

/-- C2 amended: after `deimportall(importall(N))`, every key newly introduced
by the aggregation is removed, and every original key whose binding the
aggregation did not overwrite (no surviving aggregated entry for it after
builtins protection) and whose value the provenance check does not recognize
as stdlib-aggregated is still present with its original value. -/
theorem roundtrip_restore_amended {V : Type} [DecidableEq V]
    (env : Importall.Env V) (frame : Importall.Frame V)
    (g g1 g2 : String → Option (Importall.PyVal V)) (lazy protect inc : Bool)
    (pr : Sum (List String) (List (String × Int))) (ignore s s1 s2 : List String)
    (h1 : Importall.importall env frame (some g) lazy protect inc pr ignore s
      = Except.ok (g1, s1))
    (h2 : Importall.deimportall env frame (some g1) s1 = Except.ok (g2, s2)) :
    (∀ n v, g n = some v →
      Importall.protected_symtab env
        (Importall.get_all_symbols env lazy inc pr ignore s).1 protect n
        = none →
      Importall.from_stdlib env v = false → g2 n = some v) ∧
    (∀ n, g n = none → g2 n = none) := by
  simp only [Importall.importall, Option.getD_some] at h1
  simp only [Importall.deimportall, Option.getD_some] at h2
  split at h1
  · exact Except.noConfusion h1
  split at h2
  · exact Except.noConfusion h2
  rw [Except.ok.injEq, Prod.mk.injEq] at h1 h2
  obtain ⟨hg1, hs1⟩ := h1
  obtain ⟨hg2, hs2⟩ := h2
  subst hg1
  subst hg2
  constructor
  · intro n v hg hnone hfs
    have e1 :
        tunion g (Importall.protected_symtab env
          (Importall.get_all_symbols env lazy inc pr ignore s).1 protect) n
          = some v := by
      simp [tunion, hnone, hg]
    simp [Importall.deimport_table, e1, hfs]
  · intro n hgn
    cases hsp : Importall.protected_symtab env
        (Importall.get_all_symbols env lazy inc pr ignore s).1 protect n with
    | none =>
      have e1 :
          tunion g (Importall.protected_symtab env
            (Importall.get_all_symbols env lazy inc pr ignore s).1 protect) n
            = none := by
        simp [tunion, hsp, hgn]
      simp [Importall.deimport_table, e1]
    | some w =>
      have hw := Importall.protected_symtab_some env _ protect hsp
      have hfs := Importall.from_stdlib_of_get_all_symbols env lazy inc pr
        ignore s hw
      have e1 :
          tunion g (Importall.protected_symtab env
            (Importall.get_all_symbols env lazy inc pr ignore s).1 protect) n
            = some w := by
        simp [tunion, hsp]
      simp [Importall.deimport_table, e1, hfs]

/-- C2 amended witness: an original binding `"y" ↦ 7` that no module exports
and that the provenance check does not recognize survives the round trip. -/
theorem roundtrip_restore_amended_witness :
    (Importall.deimportall_apply envM topFrame
      (Importall.importall_apply envM topFrame nsY false true false
        (Sum.inl []) [] []).1
      (Importall.importall_apply envM topFrame nsY false true false
        (Sum.inl []) [] []).2).1 "y" = some (Importall.PyVal.obj 7) :=
  (roundtrip_restore_amended envM topFrame nsY
    (Importall.importall_apply envM topFrame nsY false true false
      (Sum.inl []) [] []).1
    (Importall.deimportall_apply envM topFrame
      (Importall.importall_apply envM topFrame nsY false true false
        (Sum.inl []) [] []).1
      (Importall.importall_apply envM topFrame nsY false true false
        (Sum.inl []) [] []).2).1
    false true false (Sum.inl []) [] []
    (Importall.importall_apply envM topFrame nsY false true false
      (Sum.inl []) [] []).2
    (Importall.deimportall_apply envM topFrame
      (Importall.importall_apply envM topFrame nsY false true false
        (Sum.inl []) [] []).1
      (Importall.importall_apply envM topFrame nsY false true false
        (Sum.inl []) [] []).2).2
    rfl rfl).1 "y" (Importall.PyVal.obj 7) rfl (by decide) (by decide)

/-- C3: the reversal removes an entry exactly when its current value matches
a provenance-recorded aggregated value; an entry whose value was overwritten
by unrelated code (and so no longer matches) is left untouched. -/
theorem reversal_removes_only_matching {V : Type} [DecidableEq V]
    (env : Importall.Env V) (frame : Importall.Frame V)
    (g g2 : String → Option (Importall.PyVal V)) (s s2 : List String)
    (h : Importall.deimportall env frame (some g) s = Except.ok (g2, s2)) :
    ∀ n v, g n = some v →
      (Importall.from_stdlib env v = false → g2 n = some v) ∧
      (Importall.from_stdlib env v = true → g2 n = none) := by
  simp only [Importall.deimportall, Option.getD_some] at h
  split at h
  · exact Except.noConfusion h
  rw [Except.ok.injEq, Prod.mk.injEq] at h
  obtain ⟨hg2, -⟩ := h
  subst hg2
  intro n v hgn
  constructor <;> intro hfs <;> simp [Importall.deimport_table, hgn, hfs]

/-- C3 witness: the unrelated value `0` at `"x"` does not match any
aggregated value and survives reversal. -/
theorem reversal_removes_only_matching_witness :
    (Importall.deimportall_apply envM topFrame nsX []).1 "x" =
      some (Importall.PyVal.obj 0) :=
  ((reversal_removes_only_matching envM topFrame nsX
      (Importall.deimportall_apply envM topFrame nsX []).1 []
      (Importall.deimportall_apply envM topFrame nsX []).2 rfl) "x"
    (Importall.PyVal.obj 0) rfl).1 (by decide)

/-- C7: invoked from a non-top-level calling context (caller code object not
named `"<module>"`), both entry points raise `RuntimeError` with an explicit
message immediately, here in their default-namespace form. -/
theorem non_module_level_invocation_raises {V : Type} [DecidableEq V]
    (env : Importall.Env V) (frame : Importall.Frame V)
    (lazy protect inc : Bool) (pr : Sum (List String) (List (String × Int)))
    (ignore s : List String) (h : frame.coName ≠ "<module>") :
    Importall.importall env frame none lazy protect inc pr ignore s =
      Except.error
        "importall() function is only allowed to be invoked at the module level" ∧
    Importall.deimportall env frame none s =
      Except.error
        "deimportall() function is only allowed to be invoked at the module level" := by
  have hb : Importall.is_called_at_module_level frame = false := by
    unfold Importall.is_called_at_module_level
    exact beq_eq_false_iff_ne.mpr h
  constructor
  · unfold Importall.importall
    rw [hb]
    rfl
  · unfold Importall.deimportall
    rw [hb]
    rfl

/-- C7 witness: a call whose caller frame is a function body `f` errors. -/
theorem non_module_level_invocation_raises_witness :
    Importall.importall envM funcFrame none false true false (Sum.inl []) []
      [] = Except.error
        "importall() function is only allowed to be invoked at the module level" ∧
    Importall.deimportall envM funcFrame none [] =
      Except.error
        "deimportall() function is only allowed to be invoked at the module level" :=
  non_module_level_invocation_raises envM funcFrame false true false
    (Sum.inl []) [] [] (by decide)

/-- C8: with builtins protection on, the binding of every protected builtin
name is left exactly as it was, and any name whose binding changed took its
new value from the merged symbol table. -/
theorem builtins_protection_preserves_bindings {V : Type}
    (env : Importall.Env V) (frame : Importall.Frame V)
    (g g1 : String → Option (Importall.PyVal V)) (lazy inc : Bool)
    (pr : Sum (List String) (List (String × Int))) (ignore s s1 : List String)
    (h : Importall.importall env frame (some g) lazy true inc pr ignore s =
      Except.ok (g1, s1)) :
    (∀ n, n ∈ env.builtinsNames → g1 n = g n) ∧
    (∀ n, g1 n ≠ g n →
      g1 n = (Importall.get_all_symbols env lazy inc pr ignore s).1 n) := by
  simp only [Importall.importall, Option.getD_some] at h
  split at h
  · exact Except.noConfusion h
  rw [Except.ok.injEq, Prod.mk.injEq] at h
  obtain ⟨hg1, -⟩ := h
  subst hg1
  constructor
  · intro n hn
    have hc : env.builtinsNames.contains n = true :=
      (contains_iff_mem _ _).mpr hn
    have hp : Importall.protected_symtab env
        (Importall.get_all_symbols env lazy inc pr ignore s).1 true n
        = none := by
      show (if env.builtinsNames.contains n = true then none
        else (Importall.get_all_symbols env lazy inc pr ignore s).1 n) = none
      rw [if_pos hc]
    simp [tunion, hp]
  · intro n hne
    cases hsp : Importall.protected_symtab env
        (Importall.get_all_symbols env lazy inc pr ignore s).1 true n with
    | none => exact absurd (by simp [tunion, hsp]) hne
    | some w =>
      have hw := Importall.protected_symtab_some env _ true hsp
      rw [hw]
      simp [tunion, hsp]

/-- C8 witness: with `"x"` protected, the original `"x" ↦ 0` is untouched
even though module `"m"` exports a colliding `"x"`. -/
theorem builtins_protection_preserves_bindings_witness :
    (Importall.importall_apply envMB topFrame nsX false true false
      (Sum.inl []) [] []).1 "x" = nsX "x" :=
  (builtins_protection_preserves_bindings envMB topFrame nsX
    (Importall.importall_apply envMB topFrame nsX false true false
      (Sum.inl []) [] []).1
    false false (Sum.inl []) [] []
    (Importall.importall_apply envMB topFrame nsX false true false
      (Sum.inl []) [] []).2
    rfl).1 "x" (by decide)

/-- C9: with lazy mode on, the merge performs no module load at all (the
load log is returned unchanged), every produced entry is a deferred proxy
for its module and name, and only forcing such a proxy performs the
backing attribute fetch and its module load. -/
theorem lazy_merge_defers_loads {V : Type} (env : Importall.Env V)
    (inc : Bool) (pr : Sum (List String) (List (String × Int)))
    (ignore s : List String) :
    (Importall.get_all_symbols env true inc pr ignore s).2 = s ∧
    (∀ n w,
      (Importall.get_all_symbols env true inc pr ignore s).1 n = some w →
      ∃ m, m ∈ Importall.candidate_modules env inc ignore ∧
        w = Importall.PyVal.proxy m n) ∧
    (∀ m n t, m ∉ t →
      Importall.force env (Importall.PyVal.proxy m n) t =
        (env.getattr (env.moduleObj m) n, t ++ [m])) := by
  refine ⟨?_, ?_, ?_⟩
  · simp only [Importall.get_all_symbols]
    exact Importall.foldl_state_snd_lazy env inc _ _ s
  · intro n w h
    rw [Importall.get_all_symbols_fst, foldl_tunion_eq_pickLast] at h
    cases hp : pickLast
        (fun mm k => (Importall.import_public_names env mm true inc []).1 k)
        (sorted_modules (prioritiesOf pr)
          (Importall.candidate_modules env inc ignore)) n with
    | none => rw [hp] at h; exact absurd h (by simp)
    | some v =>
      rw [hp] at h
      cases h
      obtain ⟨m, hm, hc⟩ := exists_of_pickLast_eq_some _ hp
      refine ⟨m, mem_sorted_modules.mp hm, ?_⟩
      have hc' :
          (if (Importall.public_names_of env m inc).contains n then
            some (Importall.PyVal.proxy m n) else none) = some w := hc
      by_cases hcon : (Importall.public_names_of env m inc).contains n = true
      · rw [if_pos hcon] at hc'
        cases hc'
        rfl
      · rw [if_neg hcon] at hc'
        exact absurd hc' (by simp)
  · intro m n t ht
    have hcon : t.contains m = false := by
      cases hb : t.contains m with
      | false => rfl
      | true => exact absurd ((contains_iff_mem t m).mp hb) ht
    simp [Importall.force, Importall.import_name_from_module,
      Importall.import_module, hcon, ht]

/-- C9 witness: a lazy merge over `envAB` leaves the load log `["z"]`
unchanged, `"x"` is bound to the proxy of module `"b"`, and forcing that
proxy fetches the value and logs the load of `"b"`. -/
theorem lazy_merge_defers_loads_witness :
    (Importall.get_all_symbols envAB true false (Sum.inl ["b"]) [] ["z"]).2
      = ["z"] ∧
    (∃ m, m ∈ Importall.candidate_modules envAB false [] ∧
      (Importall.PyVal.proxy "b" "x" : Importall.PyVal Nat) =
        Importall.PyVal.proxy m "x") ∧
    Importall.force envAB (Importall.PyVal.proxy "b" "x") ["z"] =
      (21, ["z", "b"]) :=
  ⟨(lazy_merge_defers_loads envAB false (Sum.inl ["b"]) [] ["z"]).1,
    (lazy_merge_defers_loads envAB false (Sum.inl ["b"]) [] ["z"]).2.1 "x"
      (Importall.PyVal.proxy "b" "x") (by decide),
    (lazy_merge_defers_loads envAB false (Sum.inl ["b"]) [] ["z"]).2.2 "b"
      "x" ["z"] (by decide)⟩

/-- C10: the module-level check precedes any namespace access and applies
also with an explicit namespace argument: from a non-top-level context both
entry points error out and the supplied namespace is returned unchanged. -/
theorem module_level_check_error_atomicity {V : Type} [DecidableEq V]
    (env : Importall.Env V) (frame : Importall.Frame V)
    (g : String → Option (Importall.PyVal V)) (lazy protect inc : Bool)
    (pr : Sum (List String) (List (String × Int))) (ignore s : List String)
    (h : frame.coName ≠ "<module>") :
    Importall.importall env frame (some g) lazy protect inc pr ignore s =
      Except.error
        "importall() function is only allowed to be invoked at the module level" ∧
    Importall.importall_apply env frame g lazy protect inc pr ignore s =
      (g, s) ∧
    Importall.deimportall env frame (some g) s =
      Except.error
        "deimportall() function is only allowed to be invoked at the module level" ∧
    Importall.deimportall_apply env frame g s = (g, s) := by
  have hb : Importall.is_called_at_module_level frame = false := by
    unfold Importall.is_called_at_module_level
    exact beq_eq_false_iff_ne.mpr h
  have h1 : Importall.importall env frame (some g) lazy protect inc pr ignore
      s = Except.error
        "importall() function is only allowed to be invoked at the module level" := by
    unfold Importall.importall
    rw [hb]
    rfl
  have h2 : Importall.deimportall env frame (some g) s =
      Except.error
        "deimportall() function is only allowed to be invoked at the module level" := by
    unfold Importall.deimportall
    rw [hb]
    rfl
  refine ⟨h1, ?_, h2, ?_⟩
  · unfold Importall.importall_apply
    rw [h1]
  · unfold Importall.deimportall_apply
    rw [h2]

/-- C10 witness: from a function-body context with the explicit namespace
`nsX`, both calls error and `nsX` is unchanged. -/
theorem module_level_check_error_atomicity_witness :
    Importall.importall envM funcFrame (some nsX) false true false
      (Sum.inl []) [] [] = Except.error
        "importall() function is only allowed to be invoked at the module level" ∧
    Importall.importall_apply envM funcFrame nsX false true false
      (Sum.inl []) [] [] = (nsX, []) ∧
    Importall.deimportall envM funcFrame (some nsX) [] =
      Except.error
        "deimportall() function is only allowed to be invoked at the module level" ∧
    Importall.deimportall_apply envM funcFrame nsX [] = (nsX, []) :=
  module_level_check_error_atomicity envM funcFrame nsX false true false
    (Sum.inl []) [] [] (by decide)
